import Mathlib

/-!
# Verification of the job-scraping ingestion pipeline

A shallow embedding, in Lean 4, of the core components of the job-posting
ingestion pipeline (deduplication, validation/sanitization, multi-label
classification, salary extraction, and the stored-job status checker),
together with theorems settling the specification claims about them.

Python dictionaries holding job records are modelled by the structure
`Scraping.JobData` whose fields are `Option`-typed (a `none` field models
an absent key or a `None` value).  Python floats are modelled by `ℚ`.
Python truthiness (`if x:`) is modelled by explicit helpers, one per type.
-/

namespace Scraping

/-! ## Python string primitives -/

/-- Characters that Python's `str.strip()` removes (ASCII whitespace). -/
def isSpaceChar (c : Char) : Bool :=
  c == ' ' || c == '\t' || c == '\n' || c == '\r' || c == '\x0b' || c == '\x0c'

/-- `str.strip()` on the character list: drop whitespace from both ends. -/
def stripList (l : List Char) : List Char :=
  ((l.dropWhile isSpaceChar).reverse.dropWhile isSpaceChar).reverse

/-- Python `str.strip()`. -/
def pyStrip (s : String) : String := String.mk (stripList s.data)

/-- Python `str.lower()` (ASCII case folding, as used by the pipeline). -/
def pyLower (s : String) : String := String.mk (s.data.map Char.toLower)

/-- Python `str.upper()` (ASCII case folding, as used by the pipeline). -/
def pyUpper (s : String) : String := String.mk (s.data.map Char.toUpper)

/-- Python falsiness of a string (`not s`). -/
def strIsEmpty (s : String) : Bool := s.data.isEmpty

/-- Whether `needle` occurs as a contiguous substring of `hay`
(Python's `needle in hay`). -/
def occursIn (needle : List Char) : List Char → Bool
  | [] => needle.isEmpty
  | c :: rest => (c :: rest).take needle.length == needle || occursIn needle rest

/-- Python `sub in s` on strings. -/
def strContains (s sub : String) : Bool := occursIn sub.data s.data

/-- Python `s.endswith(suf)`. -/
def pyEndsWith (s suf : String) : Bool :=
  s.data.drop (s.data.length - suf.data.length) == suf.data &&
    decide (suf.data.length ≤ s.data.length)

/-- Python `s[:n]` (first `n` characters). -/
def strTake (s : String) (n : Nat) : String := String.mk (s.data.take n)

/-- Python `s[:-n]` as used with `len(suffix)` (drop the last `n` characters). -/
def strDropRight (s : String) (n : Nat) : String :=
  String.mk (s.data.take (s.data.length - n))

/-- Split a character list at every character satisfying `p` (keeping
empty chunks, like `String.split`). -/
def splitList (p : Char → Bool) : List Char → List (List Char)
  | [] => [[]]
  | c :: cs =>
    match splitList p cs with
    | [] => [[]]
    | w :: ws => if p c then [] :: w :: ws else (c :: w) :: ws

/-- Python `str.replace` for a single-character pattern: every occurrence
of `c` is replaced by `rep`. -/
def replaceChar (l : List Char) (c : Char) (rep : List Char) : List Char :=
  l.foldr (fun d acc => if d == c then rep ++ acc else d :: acc) []

/-- Python `str.split()` with no argument: split on whitespace runs,
discarding empty tokens. -/
def pyWords (s : String) : List String :=
  ((splitList isSpaceChar s.data).map String.mk).filter (fun w => !strIsEmpty w)

/-- Python `" ".join(ws)`. -/
def joinSpace (ws : List String) : String :=
  String.mk (((ws.map (fun w => w.data)).intersperse [' ']).join)

/-- Lexicographic code-point `≤` on character lists (Python's string
comparison). -/
def charListLe : List Char → List Char → Bool
  | [], _ => true
  | _ :: _, [] => false
  | a :: as1, b :: bs =>
    decide (a.toNat < b.toNat) || (a.toNat == b.toNat && charListLe as1 bs)

/-- Python `a <= b` on strings. -/
def pyStrLe (a b : String) : Prop := charListLe a.data b.data = true

instance : DecidableRel pyStrLe :=
  fun a b => inferInstanceAs (Decidable (charListLe a.data b.data = true))

/-- Python `a < b` on strings (equivalently `a <= b` and `a ≠ b`). -/
def pyStrLt (a b : String) : Prop := pyStrLe a b ∧ a ≠ b

instance : DecidableRel pyStrLt :=
  fun a b => inferInstanceAs (Decidable (pyStrLe a b ∧ a ≠ b))

/-- Python `sorted(...)` on a list of strings (lexicographic code-point
order). -/
def pySorted (l : List String) : List String :=
  List.insertionSort pyStrLe l

/-- Python `sorted(list(set(xs)))`: the distinct elements, sorted.
`List.dedup` keeps one representative per distinct element; since the
elements are then pairwise distinct, sorting is order-of-iteration
independent, so this is a faithful model of iterating a Python `set`. -/
def pySortedSet (l : List String) : List String := pySorted l.dedup

/-! ## Python truthiness -/

/-- Truthiness of an optional string (`None`, absent and `""` are falsy). -/
def optStrTruthy : Option String → Bool
  | none => false
  | some s => !strIsEmpty s

/-- Truthiness of an optional number (`None`, absent and `0` are falsy). -/
def optNumTruthy : Option ℚ → Bool
  | none => false
  | some q => decide (q ≠ 0)

/-- Truthiness of an optional integer (`None`, absent and `0` are falsy). -/
def optIntTruthy : Option Int → Bool
  | none => false
  | some n => decide (n ≠ 0)

/-- Truthiness of an optional list (`None`, absent and `[]` are falsy). -/
def optListTruthy : Option (List String) → Bool
  | none => false
  | some l => !l.isEmpty

/-- A dynamically-typed Python value, as can appear in the `remote` field
of a raw job record (`True`, `"true"`, `1`, ...). -/
inductive PyVal where
  | vStr : String → PyVal
  | vBool : Bool → PyVal
  | vNum : ℚ → PyVal
  deriving DecidableEq

/-- Python `bool(x)` on a `PyVal`. -/
def PyVal.truthy : PyVal → Bool
  | .vStr s => !strIsEmpty s
  | .vBool b => b
  | .vNum q => decide (q ≠ 0)

/-- A posted-date value: either an ISO string or a parsed datetime,
the latter modelled as a rational timestamp. -/
inductive PostedDate where
  | str : String → PostedDate
  | dt : ℚ → PostedDate
  deriving DecidableEq

/-- Truthiness of a posted date (an empty string is falsy; a datetime
object is always truthy). -/
def optDateTruthy : Option PostedDate → Bool
  | none => false
  | some (.str s) => !strIsEmpty s
  | some (.dt _) => true

/-! ## The job record

One structure models the Python job dictionaries flowing through the
pipeline.  A `none` models an absent key (or `None`); the `_dedup_*`
metadata keys written by the merge are the `dedup_*` fields. -/

@[ext]
structure JobData where
  job_id : Option String := none
  title : Option String := none
  company : Option String := none
  location : Option String := none
  country : Option String := none
  description : Option String := none
  category : Option String := none
  industry : Option String := none
  salary_min : Option ℚ := none
  salary_max : Option ℚ := none
  salary_currency : Option String := none
  all_skills : Option (List String) := none
  skills_required : Option (List String) := none
  skills_preferred : Option (List String) := none
  remote : Option PyVal := none
  source_url : Option String := none
  source_platform : Option String := none
  posted_date : Option PostedDate := none
  dedup_sources : Option (List String) := none
  dedup_source_urls : Option (List String) := none
  dedup_count : Option Nat := none
  deriving DecidableEq

/-! ## JobDeduplicator (src/processors/deduplication.py)

Similarity uses rapidfuzz's `fuzz.token_sort_ratio`: both strings are
split into whitespace tokens, the tokens sorted and re-joined with single
spaces, and the normalized InDel (insertion/deletion) similarity of the two
rejoined strings is returned on a 0–100 scale. -/

/-- Insertion/deletion (LCS) edit distance between two character lists,
with a structural fuel so that it reduces inside the kernel.  Every
recursive call shrinks `xs.length + ys.length` by at least one and the
fuel by exactly one, so `indelDist` below (which supplies that sum as
fuel) computes the true distance. -/
def indelDistFuel : Nat → List Char → List Char → Nat
  | _, [], ys => ys.length
  | _, x :: xs, [] => (x :: xs).length
  | 0, xs, ys => xs.length + ys.length
  | f + 1, x :: xs, y :: ys =>
    if x = y then indelDistFuel f xs ys
    else 1 + min (indelDistFuel f xs (y :: ys)) (indelDistFuel f (x :: xs) ys)

/-- Insertion/deletion (LCS) edit distance between two character lists. -/
def indelDist (xs ys : List Char) : Nat := indelDistFuel (xs.length + ys.length) xs ys

/-- rapidfuzz `fuzz.ratio`: normalized InDel similarity, scaled to 0–100
(`100` for two empty strings). -/
def fuzzRatio (a b : String) : ℚ :=
  let la := a.data.length
  let lb := b.data.length
  if la + lb = 0 then 100
  else 100 * (((la + lb : ℚ) - indelDist a.data b.data) / (la + lb))

/-- rapidfuzz token-sort preprocessing: whitespace tokens, sorted,
joined by single spaces. -/
def tokenSortPrep (s : String) : String :=
  joinSpace (pySorted (pyWords s))

/-- rapidfuzz `fuzz.token_sort_ratio`. -/
def token_sort_ratio (a b : String) : ℚ :=
  fuzzRatio (tokenSortPrep a) (tokenSortPrep b)

/-- Deduplicator configuration: `FUZZY_MATCH_THRESHOLD` (default 85) and
`ENABLE_DEDUPLICATION` (default true). -/
structure DedupConfig where
  threshold : ℚ := 85
  enabled : Bool := true

/-- `JobDeduplicator.is_duplicate` with the default `check_fields`
(`["title", "company", "location"]`): per-field token-sort similarity of
the lowercased, stripped values, skipping fields empty on either side;
duplicate iff the average similarity reaches the threshold. -/
def is_duplicate (cfg : DedupConfig) (job1 job2 : JobData) : Bool × ℚ :=
  if !cfg.enabled then (false, 0)
  else
    let check_fields : List (JobData → Option String) :=
      [(·.title), (·.company), (·.location)]
    let scores := check_fields.foldl
      (fun scores f =>
        let val1 := pyStrip (pyLower ((f job1).getD ""))
        let val2 := pyStrip (pyLower ((f job2).getD ""))
        if strIsEmpty val1 || strIsEmpty val2 then scores
        else scores ++ [token_sort_ratio val1 val2]) []
    if scores.isEmpty then (false, 0)
    else
      let avg_score := scores.sum / (scores.length : ℚ)
      (decide (cfg.threshold ≤ avg_score), avg_score)

/-- `JobDeduplicator.merge_duplicate_jobs`: merge duplicates into the
primary record field by field, in encounter order. -/
def merge_duplicate_jobs (primary_job : JobData) (duplicate_jobs : List JobData) :
    JobData :=
  let merged := primary_job
  let all_sources := [primary_job.source_platform.getD "Unknown"]
  let all_urls := [primary_job.source_url.getD ""]
  let step := fun (acc : JobData × List String × List String) (dup_job : JobData) =>
    let merged := acc.1
    let all_sources := acc.2.1
    let all_urls := acc.2.2
    let source := dup_job.source_platform.getD "Unknown"
    let url := dup_job.source_url.getD ""
    let all_sources := if source ∈ all_sources then all_sources
      else all_sources ++ [source]
    let all_urls := if !strIsEmpty url && !(url ∈ all_urls : Bool) then all_urls ++ [url]
      else all_urls
    let merged := if !optStrTruthy merged.description &&
        optStrTruthy dup_job.description then
      { merged with description := dup_job.description } else merged
    let merged := if !optNumTruthy merged.salary_min &&
        optNumTruthy dup_job.salary_min then
      { merged with
        salary_min := dup_job.salary_min
        salary_max := dup_job.salary_max
        salary_currency := dup_job.salary_currency } else merged
    let combined_skills :=
      pySortedSet ((merged.all_skills.getD []) ++ (dup_job.all_skills.getD []))
    let merged := if optListTruthy dup_job.all_skills then
      { merged with all_skills := some combined_skills } else merged
    (merged, all_sources, all_urls)
  let res := duplicate_jobs.foldl step (merged, all_sources, all_urls)
  let merged := res.1
  let all_sources := res.2.1
  let all_urls := res.2.2
  { merged with
    dedup_sources := some all_sources
    dedup_source_urls := some (all_urls.filter (fun url => !strIsEmpty url))
    dedup_count := some (duplicate_jobs.length + 1) }

/-! ## JobValidator (src/utils/validation.py)

`validate` is parameterized by the environment-derived configuration, by
the behaviour `isoOk` of `datetime.fromisoformat` (a stdlib collaborator:
`isoOk s` says whether parsing succeeds after the `Z` → `+00:00`
replacement), and by the current time `now` (`datetime.utcnow()`).
Each check appends its error independently of the others, so the error
list is the concatenation of the per-check segments, in source order. -/

structure VConfig where
  min_description_length : Nat := 50
  require_company_name : Bool := true
  require_location : Bool := true

/-- Python `s.startswith(pre)`. -/
def pyStartsWith (s pre : String) : Bool := s.data.take pre.data.length == pre.data

def spam_indicators : List String :=
  ["viagra", "cialis", "casino", "poker",
   "click here", "limited time offer", "earn $$$"]

def valid_countries : List String := ["US", "CA", "IN", "AU"]

/-- The description-length error message (the Python f-string interpolates
the configured minimum and the stripped length). -/
def descTooShortMsg (minLen gotLen : Nat) : String :=
  "Description too short (minimum " ++ toString minLen ++ " characters, got " ++
    toString gotLen ++ ")"

/-- The salary-range error message, `Salary min (m) > max (M)`. -/
def salaryRangeMsg (m M : ℚ) : String :=
  "Salary min (" ++ toString m ++ ") > max (" ++ toString M ++ ")"

/-- `JobValidator.validate`: returns `(is_valid, errors)`.
Checks whose Python guard involves `isinstance` degenerate in this typed
model (a present field always has the modelled type), which is noted at
each such check. -/
def validate (cfg : VConfig) (isoOk : String → Bool) (now : ℚ) (j : JobData) :
    Bool × List String :=
  let e_job_id := if !optStrTruthy j.job_id
    then ["Missing required field: job_id"] else []
  let e_title := if !optStrTruthy j.title then ["Missing required field: title"]
    else if (pyStrip (j.title.getD "")).length < 3
    then ["Job title too short (minimum 3 characters)"] else []
  let e_company := if !cfg.require_company_name then []
    else if !optStrTruthy j.company then ["Missing required field: company"]
    else if (pyStrip (j.company.getD "")).length < 2 then ["Company name too short"]
    else if pyLower (j.company.getD "") ∈ ["unknown", "n/a", "na", "none"]
    then ["Invalid company name"] else []
  let e_location := if !cfg.require_location then []
    else if !optStrTruthy j.location then ["Missing required field: location"]
    else if (pyStrip (j.location.getD "")).length < 2
    then ["Location too short"] else []
  let description := j.description.getD ""
  let e_desc := if strIsEmpty description ||
      (pyStrip description).length < cfg.min_description_length
    then [descTooShortMsg cfg.min_description_length (pyStrip description).length]
    else []
  -- the Python loop appends at most one spam error then breaks
  -- (and wraps the found phrase in single quotes)
  let e_spam := if !strIsEmpty description then
      match spam_indicators.find? (fun sp => strContains (pyLower description) sp) with
      | some sp => ["Potential spam detected: contains " ++ sp]
      | none => []
    else []
  let e_country := if optStrTruthy j.country &&
      !(j.country.getD "" ∈ valid_countries : Bool)
    then ["Invalid country code: " ++ j.country.getD ""] else []
  -- `salary_min is not None`: presence, not truthiness; the
  -- `isinstance(salary_min, (int, float))` arm cannot fire in the typed model
  let e_salary_min := match j.salary_min with
    | none => []
    | some m => if m < 0 then ["Invalid salary_min: " ++ toString m]
      else if 1000000 < m then ["Salary min too high (>$1M): " ++ toString m]
      else []
  let e_salary_max := match j.salary_max with
    | none => []
    | some m => if m < 0 then ["Invalid salary_max: " ++ toString m]
      else if 2000000 < m then ["Salary max too high (>$2M): " ++ toString m]
      else []
  -- `if salary_min and salary_max and salary_min > salary_max`: truthiness
  let e_salary_range := if optNumTruthy j.salary_min && optNumTruthy j.salary_max
      && decide (j.salary_max.getD 0 < j.salary_min.getD 0)
    then [salaryRangeMsg (j.salary_min.getD 0) (j.salary_max.getD 0)] else []
  -- `skills and not isinstance(skills, list)` cannot fire in the typed model
  let skills := j.all_skills.getD []
  let e_skills := if !skills.isEmpty && decide (100 < skills.length)
    then ["Too many skills (" ++ toString skills.length ++
      "), possible extraction error"] else []
  let e_url := if optStrTruthy j.source_url then
      (let u := j.source_url.getD ""
       if !(pyStartsWith u "http://" || pyStartsWith u "https://")
       then ["Invalid source URL format: " ++ u] else [])
    else []
  let e_date := if optDateTruthy j.posted_date then
      match j.posted_date with
      | some (.str s) => if !isoOk (String.mk (replaceChar s.data 'Z' "+00:00".data))
        then ["Invalid posted_date format: " ++ s] else []
      | some (.dt t) => if now < t then ["Posted date is in the future"] else []
      | none => []
    else []
  let errors := e_job_id ++ e_title ++ e_company ++ e_location ++ e_desc ++
    e_spam ++ e_country ++ e_salary_min ++ e_salary_max ++ e_salary_range ++
    e_skills ++ e_url ++ e_date
  (errors.isEmpty, errors)

/-- The company suffixes stripped by `sanitize`, in source order. -/
def companySuffixes : List String :=
  [" Inc.", " LLC", " Ltd.", " Corporation", " Corp."]

/-- The suffix-stripping loop of `sanitize`: each suffix in order is
removed (at most once) if the company currently ends with it, and the
remainder is stripped. -/
def stripCompanySuffixes (company : String) : String :=
  companySuffixes.foldl
    (fun c suf => if pyEndsWith c suf then pyStrip (strDropRight c suf.length) else c)
    company

/-- `JobValidator.sanitize`: trim string fields, strip company suffixes,
uppercase a truthy country, sort and de-duplicate the skill lists, and
coerce `remote` to a boolean.  (The `all_skills`-must-be-a-list repair
cannot fire in the typed model.) -/
def sanitize (j : JobData) : JobData :=
  let s := { j with
    title := j.title.map pyStrip
    company := j.company.map pyStrip
    location := j.location.map pyStrip
    description := j.description.map pyStrip
    category := j.category.map pyStrip
    industry := j.industry.map pyStrip }
  let s := { s with company := s.company.map stripCompanySuffixes }
  let upperCountry := s.country.map (fun (c : String) => if strIsEmpty c then c else pyUpper c)
  let s := { s with country := upperCountry }
  let s := { s with all_skills := s.all_skills.map pySortedSet }
  let s := { s with skills_required := s.skills_required.map pySortedSet }
  let s := { s with skills_preferred := s.skills_preferred.map pySortedSet }
  let s := { s with remote := s.remote.map (fun (v : PyVal) => PyVal.vBool v.truthy) }
  s

/-! ## StatusChecker (src/utils/job_status_checker.py and
src/models/database.py)

The stored row's fields touched by `_update_job_status`, with time again
modelled as a rational timestamp.  A probe outcome is the HTTP status code,
with `0` standing for a network/timeout error (as in `_check_url_status`). -/

inductive JobStatus where
  | active
  | removed
  | expired
  | checking
  deriving DecidableEq

structure JobRow where
  status : JobStatus := .active
  is_active : Bool := true
  status_last_checked : Option ℚ := none
  status_check_code : Option Int := none
  status_check_error : Option String := none
  deriving DecidableEq

/-- `Job.mark_as_removed` (src/models/database.py): the code and error are
only recorded when truthy. -/
def mark_as_removed (now : ℚ) (j : JobRow) (status_code : Option Int)
    (error : Option String) : JobRow :=
  let j := { j with
    status := .removed
    is_active := false
    status_last_checked := some now }
  let j := if optIntTruthy status_code
    then { j with status_check_code := status_code } else j
  let j := if optStrTruthy error then { j with status_check_error := error } else j
  j

/-- `JobStatusChecker._update_job_status`: record the probe outcome, then
transition only on 404/410; every other branch (200, redirects, 5xx,
network error, anything else) merely logs. -/
def update_job_status (now : ℚ) (job : JobRow) (status_code : Int)
    (error_message : Option String) : JobRow :=
  let job := { job with
    status_last_checked := some now
    status_check_code := if 0 < status_code then some status_code else none
    status_check_error := error_message }
  if status_code = 200 then job
  else if status_code = 404 ∨ status_code = 410 then
    mark_as_removed now job (some status_code) none
  else if status_code ∈ ([301, 302, 307, 308] : List Int) then job
  else if 500 ≤ status_code then job
  else if status_code = 0 then job
  else job

/-! ## JobClassifier (src/processors/job_classifier.py)

The category taxonomy (`config/job_categories.json`, an external
configuration file) is a map industry → category → job-title phrases,
modelled as nested association lists in insertion order.  The keyword
database maps each keyword to the list of `(industry, category, weight,
source)` entries registered for it, again in insertion order
(`defaultdict(list)`). -/

structure KwEntry where
  industry : String
  category : Option String
  weight : ℚ
  source : String
  deriving DecidableEq

abbrev Categories := List (String × List (String × List String))

abbrev KeywordDB := List (String × List KwEntry)

/-- `keyword_db[k].append(e)` on a `defaultdict(list)`. -/
def dbAdd (db : KeywordDB) (k : String) (e : KwEntry) : KeywordDB :=
  match db with
  | [] => [(k, [e])]
  | (k1, es) :: rest =>
    if k1 = k then (k1, es ++ [e]) :: rest else (k1, es) :: dbAdd rest k e

/-- The common words skipped when registering per-word keywords. -/
def classifierStopwords : List String :=
  ["developer", "engineer", "specialist", "analyst", "the", "and", "or"]

/-- The fixed healthcare industry keywords and weights, in source order. -/
def healthcare_keywords_weighted : List (String × ℚ) :=
  [("healthcare", 5), ("medical", 5), ("clinical", 5), ("hospital", 4),
   ("patient", 4), ("ehr", 8), ("emr", 8), ("fhir", 9), ("hl7", 9),
   ("epic", 7), ("cerner", 7), ("meditech", 7), ("telehealth", 7),
   ("telemedicine", 7), ("pacs", 7), ("dicom", 7), ("hipaa", 6)]

/-- The fixed IT category keyword sets and weights, in source order. -/
def it_category_keywords : List (String × List (String × ℚ)) :=
  [("Frontend Development",
    [("react", 7), ("vue", 7), ("angular", 7), ("frontend", 9),
     ("ui", 6), ("ux", 6), ("javascript", 5), ("typescript", 5),
     ("css", 4), ("html", 4), ("webpack", 5)]),
   ("Backend Development",
    [("backend", 9), ("api", 6), ("database", 5), ("sql", 5),
     ("postgresql", 6), ("mongodb", 6), ("redis", 5), ("kafka", 5)]),
   ("Cloud & DevOps",
    [("devops", 9), ("kubernetes", 8), ("docker", 7), ("aws", 7),
     ("azure", 7), ("gcp", 7), ("terraform", 7), ("ansible", 6),
     ("ci/cd", 6), ("jenkins", 5), ("sre", 8), ("cloud", 6)]),
   ("Data Engineering",
    [("data", 6), ("etl", 8), ("pipeline", 6), ("spark", 7),
     ("hadoop", 7), ("airflow", 7), ("snowflake", 7), ("databricks", 7),
     ("warehouse", 6)]),
   ("AI & Machine Learning",
    [("machine learning", 9), ("ai", 7), ("ml", 7), ("deep learning", 8),
     ("nlp", 8), ("pytorch", 7), ("tensorflow", 7), ("llm", 8),
     ("genai", 8), ("mlops", 7)]),
   ("Security Engineering",
    [("security", 8), ("cybersecurity", 9), ("penetration", 7),
     ("ethical hacker", 8), ("soc", 7), ("firewall", 6)]),
   ("Mobile Development",
    [("mobile", 8), ("ios", 9), ("android", 9), ("swift", 8),
     ("kotlin", 8), ("react native", 8), ("flutter", 8)])]

/-- `JobClassifier._add_industry_keywords`. -/
def add_industry_keywords (db : KeywordDB) : KeywordDB :=
  let db := healthcare_keywords_weighted.foldl
    (fun db kw => dbAdd db kw.1 ⟨"Healthcare", none, kw.2, "industry_keyword"⟩) db
  it_category_keywords.foldl
    (fun db ck => ck.2.foldl
      (fun db kw => dbAdd db kw.1 ⟨"IT", some ck.1, kw.2, "category_keyword"⟩) db)
    db

/-- `JobClassifier._build_keyword_database`: exact title phrases get
weight 10, their non-stopword words weight 1, then the fixed industry and
category keyword sets are appended. -/
def build_keyword_database (categories : Categories) : KeywordDB :=
  let db := categories.foldl (fun db ic =>
    ic.2.foldl (fun db ct =>
      ct.2.foldl (fun db job_title =>
        let title_lower := pyLower job_title
        let db := dbAdd db title_lower ⟨ic.1, some ct.1, 10, "exact_title"⟩
        (pyWords title_lower).foldl (fun db w =>
          if w ∈ classifierStopwords then db
          else dbAdd db w ⟨ic.1, some ct.1, 1, "word"⟩) db) db) db) []
  add_industry_keywords db

/-- `scores[category] += weight` on a `defaultdict(float)`. -/
def bumpScore (scores : List (String × ℚ)) (cat : String) (w : ℚ) :
    List (String × ℚ) :=
  match scores with
  | [] => [(cat, w)]
  | (c, v) :: rest =>
    if c = cat then (c, v + w) :: rest else (c, v) :: bumpScore rest cat w

/-- `JobClassifier._calculate_category_scores`: for every database keyword
occurring in the text, accumulate its entries' weights into their category
buckets, multiplying by 1.5 when the keyword also occurs in the first 200
characters; industry-only entries (`category is None`) are skipped. -/
def calculate_category_scores (db : KeywordDB) (text : String) :
    List (String × ℚ) :=
  db.foldl (fun scores ke =>
    if strContains text ke.1 then
      ke.2.foldl (fun scores m =>
        match m.category with
        | none => scores
        | some category =>
          let weight := if strContains (strTake text 200) ke.1
            then m.weight * (3 / 2) else m.weight
          bumpScore scores category weight) scores
    else scores) []

/-- The healthcare keywords counted by `_determine_industry`. -/
def healthcareTextKeywords : List String :=
  ["healthcare", "medical", "clinical", "hospital", "patient",
   "ehr", "emr", "fhir", "hl7", "epic", "cerner", "hipaa"]

/-- `JobClassifier._determine_industry`. -/
def determine_industry (categories : Categories) (primary_category : String)
    (text : String) : String :=
  let hc := ((categories.find? (fun ic => ic.1 == "Healthcare")).map
    (fun ic => ic.2)).getD []
  if hc.any (fun ct => decide (primary_category ∈ ct.2)) then "Healthcare"
  else if 3 ≤ (healthcareTextKeywords.filter
      (fun kw => strContains text kw)).length then "Healthcare"
  else "IT"

/-- Python's `round` to the nearest integer, ties to even. -/
def pyRoundHalfEven (x : ℚ) : ℤ :=
  let f := ⌊x⌋
  let frac := x - f
  if frac < 1 / 2 then f
  else if 1 / 2 < frac then f + 1
  else if f % 2 = 0 then f else f + 1

/-- Python's `round(x, n)`. -/
def pyRound (x : ℚ) (n : ℕ) : ℚ := (pyRoundHalfEven (x * 10 ^ n) : ℚ) / 10 ^ n

structure Classification where
  industry : String
  primary_category : String
  secondary_categories : List String
  classification_confidence : ℚ
  primary_score : ℚ
  deriving DecidableEq

/-- `JobClassifier._default_classification`. -/
def default_classification : Classification :=
  { industry := "IT", primary_category := "Full Stack Development",
    secondary_categories := [], classification_confidence := 0,
    primary_score := 0 }

/-- Descending order on score pairs, used to model
`sorted(..., key=lambda x: x[1], reverse=True)`. -/
def scoreDescOrder (a b : String × ℚ) : Prop := b.2 ≤ a.2

instance : DecidableRel scoreDescOrder :=
  fun a b => inferInstanceAs (Decidable (b.2 ≤ a.2))

/-- `JobClassifier.classify_job` (with `db = build_keyword_database cats`,
built once at startup). -/
def classify_job (categories : Categories) (db : KeywordDB) (title : String)
    (description : String) : Classification :=
  let text := pyLower (title ++ " " ++ description)
  let category_scores := calculate_category_scores db text
  if category_scores.isEmpty then default_classification
  else
    let sorted_scores := List.insertionSort scoreDescOrder category_scores
    let primary_category := (sorted_scores.headD ("", 0)).1
    let primary_score := (sorted_scores.headD ("", 0)).2
    let industry := determine_industry categories primary_category text
    let secondary_threshold := primary_score * (3 / 10)
    let secondary_categories := (((sorted_scores.drop 1).take 5).filter
      (fun cs => decide (secondary_threshold ≤ cs.2) &&
        decide ((5 : ℚ) ≤ cs.2))).map (fun cs => cs.1)
    let confidence := min (primary_score / 50) 1
    { industry := industry, primary_category := primary_category,
      secondary_categories := secondary_categories,
      classification_confidence := pyRound confidence 3,
      primary_score := pyRound primary_score 2 }

/-- `JobClassifier._load_categories`: reading and parsing the taxonomy
file is an external effect whose outcome is passed in; on any exception
the method logs and returns an empty taxonomy. -/
def load_categories (fileResult : Except String Categories) : Categories :=
  match fileResult with
  | .ok cats => cats
  | .error _ => []

/-! ## SkillsExtractor.extract_salary (src/processors/skills_extractor.py)

The three salary regexes are embedded as regex ASTs and matched with a
backtracking matcher that mirrors `re.search`: leftmost match, greedy
quantifiers with backtracking.  The fuel bounds the iteration depth of a
`star`; since every starred sub-pattern here consumes at least one
character per iteration, `length + 1` fuel gives exact `re` semantics.
`\d` and `\s` are modelled at ASCII (the inputs are scraped ASCII text). -/

inductive RE where
  | eps
  | tok (p : Char → Bool)
  | lit (cs : List Char)
  | seq (r1 r2 : RE)
  | alt (r1 r2 : RE)
  | opt (r : RE)
  | star (r : RE)
  | grp (i : Nat) (r : RE)

abbrev Caps := List (Nat × List Char)

def setCap (caps : Caps) (i : Nat) (v : List Char) : Caps :=
  match caps with
  | [] => [(i, v)]
  | (j, w) :: rest => if j = i then (j, v) :: rest else (j, w) :: setCap rest i v

/-- The backtracking matcher, in continuation-passing style: attempt to
match `re` against a front segment of `s`, calling `k` with the remainder
and the updated captures; `none` propagates failure so that earlier
choice points (alternation, greedy `opt`/`star`) try their other branch. -/
def reM : Nat → RE → List Char → Caps → (List Char → Caps → Option Caps) →
    Option Caps
  | 0, _, _, _, _ => none
  | fuel + 1, re, s, caps, k =>
    match re with
    | .eps => k s caps
    | .tok p =>
      match s with
      | [] => none
      | c :: rest => if p c then k rest caps else none
    | .lit cs => if s.take cs.length = cs then k (s.drop cs.length) caps else none
    | .seq r1 r2 => reM fuel r1 s caps (fun s1 c1 => reM fuel r2 s1 c1 k)
    | .alt r1 r2 =>
      match reM fuel r1 s caps k with
      | some res => some res
      | none => reM fuel r2 s caps k
    | .opt r =>
      match reM fuel r s caps k with
      | some res => some res
      | none => k s caps
    | .star r =>
      match reM fuel r s caps (fun s1 c1 => reM fuel (.star r) s1 c1 k) with
      | some res => some res
      | none => k s caps
    | .grp i r =>
      reM fuel r s caps (fun s1 c1 => k s1 (setCap c1 i (s.take (s.length - s1.length))))

/-- Structural size of a pattern, used to choose a sufficient fuel. -/
def reSize : RE → Nat
  | .eps => 1
  | .tok _ => 1
  | .lit _ => 1
  | .seq r1 r2 => 1 + reSize r1 + reSize r2
  | .alt r1 r2 => 1 + reSize r1 + reSize r2
  | .opt r => 1 + reSize r
  | .star r => 1 + reSize r
  | .grp _ r => 1 + reSize r

/-- The fuel used when matching `re` against `s`.  Along any call path the
fuel drops by one per constructor of the pattern and per starred
iteration, and every starred sub-pattern of the salary regexes consumes at
least one character per iteration, so this generous product makes `reM`
behave exactly like unbounded backtracking on them. -/
def reFuel (re : RE) (s : List Char) : Nat := (reSize re + 1) * (s.length + 2)

/-- `re.search`: try a match at each start position, leftmost first
(including the empty position at the end of the string). -/
def reSearchFrom (re : RE) : List Char → Option Caps
  | [] => reM (reFuel re []) re [] [] (fun _ caps => some caps)
  | c :: rest =>
    match reM (reFuel re (c :: rest)) re (c :: rest) [] (fun _ caps => some caps) with
    | some caps => some caps
    | none => reSearchFrom re rest

def reSearch (re : RE) (text : String) : Option Caps := reSearchFrom re text.data

def reDigit : RE := .tok Char.isDigit

def reWS : RE := .tok isSpaceChar

def reChar (c : Char) : RE := .tok (fun d => d == c)

/-- `r{1,3}`, greedy. -/
def reRep13 (r : RE) : RE := .seq r (.opt (.seq r (.opt r)))

/-- `(?:,\d{3})`. -/
def commaTriple : RE := .seq (reChar ',') (.seq reDigit (.seq reDigit reDigit))

/-- `\d{1,3}(?:,\d{3})*`. -/
def numCore : RE := .seq (reRep13 reDigit) (.star commaTriple)

/-- `(?:\.\d{2})?`. -/
def centsOpt : RE := .opt (.seq (reChar '.') (.seq reDigit reDigit))

/-- `(?:k|K)`. -/
def kSuff : RE := .tok (fun c => c == 'k' || c == 'K')

def wsStar : RE := .star reWS

/-- `\$(\d{1,3}(?:,\d{3})*(?:\.\d{2})?)\s*-\s*\$(\d{1,3}(?:,\d{3})*(?:\.\d{2})?)` -/
def salary_pattern1 : RE :=
  .seq (reChar '$') (.seq (.grp 1 (.seq numCore centsOpt))
    (.seq wsStar (.seq (reChar '-') (.seq wsStar
      (.seq (reChar '$') (.grp 2 (.seq numCore centsOpt)))))))

/-- `(\d{1,3}(?:,\d{3})*)\s*-\s*(\d{1,3}(?:,\d{3})*)\s*(?:USD|dollars)` -/
def salary_pattern2 : RE :=
  .seq (.grp 1 numCore) (.seq wsStar (.seq (reChar '-') (.seq wsStar
    (.seq (.grp 2 numCore) (.seq wsStar (.alt (.lit "USD".data) (.lit "dollars".data)))))))

/-- `\$(\d{1,3}(?:,\d{3})*(?:k|K))\s*-\s*\$(\d{1,3}(?:,\d{3})*(?:k|K))` -/
def salary_pattern3 : RE :=
  .seq (reChar '$') (.seq (.grp 1 (.seq numCore kSuff))
    (.seq wsStar (.seq (reChar '-') (.seq wsStar
      (.seq (reChar '$') (.grp 2 (.seq numCore kSuff)))))))

def salary_patterns : List RE := [salary_pattern1, salary_pattern2, salary_pattern3]

def digitsToNat (l : List Char) : Nat := l.foldl (fun n c => 10 * n + (c.toNat - 48)) 0

/-- Python `float(s)` on the digit strings (with at most one decimal
point) that the munged salary groups can produce; anything else is a
parse failure (`ValueError`). -/
def pyFloatOfString (s : String) : Option ℚ :=
  match splitList (fun c => c == '.') s.data with
  | [ip] => if !ip.isEmpty && ip.all Char.isDigit
    then some ((digitsToNat ip : ℚ)) else none
  | [ip, fp] => if !ip.isEmpty && !fp.isEmpty && ip.all Char.isDigit &&
      fp.all Char.isDigit
    then some ((digitsToNat ip : ℚ) + (digitsToNat fp : ℚ) / (10 ^ fp.length))
    else none
  | _ => none

structure SalaryInfo where
  min : Option ℚ
  max : Option ℚ
  currency : Option String
  deriving DecidableEq

def capGroup (caps : Caps) (i : Nat) : Option (List Char) :=
  (caps.find? (fun c => c.1 == i)).map (fun c => c.2)

/-- `.replace(',', '').replace('k', '000').replace('K', '000')`. -/
def mungeGroup (g : List Char) : String :=
  String.mk (replaceChar (replaceChar (replaceChar g ',' []) 'k' "000".data) 'K' "000".data)

/-- `SkillsExtractor.extract_salary`: try the three patterns in order;
on the first match convert both groups with `float`, mutating the result
as the Python does (`min` is assigned before `max`, so a failure between
the two assignments leaves `min` set and moves to the next pattern);
the initial value of `currency` is the string `"USD"`. -/
def extract_salary (text : String) : SalaryInfo :=
  let init : SalaryInfo := { min := none, max := none, currency := some "USD" }
  let step := fun (st : SalaryInfo × Bool) (p : RE) =>
    if st.2 then st
    else
      match reSearch p text with
      | none => st
      | some caps =>
        match capGroup caps 1, capGroup caps 2 with
        | some g1, some g2 =>
          let min_sal := mungeGroup g1
          let max_sal := mungeGroup g2
          match pyFloatOfString min_sal with
          | none => st
          | some a =>
            let st1 : SalaryInfo × Bool := ({ st.1 with min := some a }, false)
            match pyFloatOfString max_sal with
            | none => st1
            | some b => ({ st1.1 with max := some b }, true)
        | _, _ => st
  (salary_patterns.foldl step (init, false)).1

/-! ## Heap model of `merge_duplicate_jobs`

To settle the frame claim (the merge mutates neither its primary nor its
duplicate records), the same Python method is embedded once more against
an explicit heap of job dictionaries: records are heap cells addressed by
index, `primary_job.copy()` allocates a fresh cell, and each Python
`merged[...] = ...` statement is a `heapSet` on the fresh cell. -/

abbrev Heap := List JobData

def emptyJob : JobData := {}

def heapGet (h : Heap) (a : Nat) : Option JobData := h[a]?

def heapSet (h : Heap) (a : Nat) (v : JobData) : Heap := h.set a v

/-- One iteration of the `for dup_job in duplicate_jobs` loop, reading the
duplicate at address `d` and writing only the merged cell `m`. -/
def merge_heap_step (m : Nat) (acc : Heap × List String × List String) (d : Nat) :
    Heap × List String × List String :=
  let h := acc.1
  let all_sources := acc.2.1
  let all_urls := acc.2.2
  let dup_job := (heapGet h d).getD emptyJob
  let source := dup_job.source_platform.getD "Unknown"
  let url := dup_job.source_url.getD ""
  let all_sources := if source ∈ all_sources then all_sources
    else all_sources ++ [source]
  let all_urls := if !strIsEmpty url && !(url ∈ all_urls : Bool) then all_urls ++ [url]
    else all_urls
  let mval := (heapGet h m).getD emptyJob
  let h := if !optStrTruthy mval.description && optStrTruthy dup_job.description
    then heapSet h m { mval with description := dup_job.description } else h
  let mval := (heapGet h m).getD emptyJob
  let withSalary := { mval with
    salary_min := dup_job.salary_min
    salary_max := dup_job.salary_max
    salary_currency := dup_job.salary_currency }
  let h := if !optNumTruthy mval.salary_min && optNumTruthy dup_job.salary_min
    then heapSet h m withSalary else h
  let mval := (heapGet h m).getD emptyJob
  let combined := pySortedSet ((mval.all_skills.getD []) ++ (dup_job.all_skills.getD []))
  let h := if optListTruthy dup_job.all_skills
    then heapSet h m { mval with all_skills := some combined } else h
  (h, all_sources, all_urls)

/-- `merge_duplicate_jobs` against the heap: returns the heap after the
call together with the address of the merged record. -/
def merge_duplicate_jobs_heap (h : Heap) (p : Nat) (dups : List Nat) :
    Heap × Nat :=
  let primary_job := (heapGet h p).getD emptyJob
  let m := h.length
  let h := h ++ [primary_job]
  let all_sources := [primary_job.source_platform.getD "Unknown"]
  let all_urls := [primary_job.source_url.getD ""]
  let res := dups.foldl (merge_heap_step m) (h, all_sources, all_urls)
  let h := res.1
  let mval := (heapGet h m).getD emptyJob
  let finalized := { mval with
    dedup_sources := some res.2.1
    dedup_source_urls := some (res.2.2.filter (fun u => !strIsEmpty u))
    dedup_count := some (dups.length + 1) }
  (heapSet h m finalized, m)

/-! ## Helper lemmas -/

/-- A `foldl` preserves any invariant preserved by its step function. -/
theorem foldl_invariant {α β : Type _} {P : β → Prop} (f : β → α → β) :
    ∀ (l : List α) (b : β), (∀ b a, a ∈ l → P b → P (f b a)) → P b →
      P (l.foldl f b)
  | [], b, _, hb => hb
  | a :: l, b, h, hb =>
    foldl_invariant f l (f b a) (fun b x hx hb => h b x (List.mem_cons_of_mem a hx) hb)
      (h b a (List.mem_cons_self a l) hb)

theorem dropWhile_dropWhile {p : Char → Bool} :
    ∀ l : List Char, (l.dropWhile p).dropWhile p = l.dropWhile p
  | [] => rfl
  | c :: l => by
    by_cases h : p c
    · simp [List.dropWhile_cons, h, dropWhile_dropWhile l]
    · simp [List.dropWhile_cons, h]

/-- The head of a `dropWhile` result fails the predicate. -/
theorem dropWhile_head_false {p : Char → Bool} :
    ∀ {l : List Char} {a : Char} {t : List Char}, l.dropWhile p = a :: t →
      p a = false
  | [], a, t, h => by simp at h
  | c :: l, a, t, h => by
    by_cases hc : p c
    · rw [List.dropWhile_cons, if_pos hc] at h
      exact dropWhile_head_false h
    · rw [List.dropWhile_cons, if_neg hc] at h
      cases h
      simpa using hc

/-- `stripList` is a fixed point of a front `dropWhile`. -/
theorem dropWhile_stripList {l : List Char} :
    (stripList l).dropWhile isSpaceChar = stripList l := by
  unfold stripList
  rcases hcase : l.dropWhile isSpaceChar with _ | ⟨a, t⟩
  · simp
  · have ha : isSpaceChar a = false := dropWhile_head_false hcase
    rw [List.reverse_cons]
    rcases hsplit : t.reverse.dropWhile isSpaceChar with _ | ⟨b, s⟩
    · rw [List.dropWhile_append, hsplit]
      simp [List.dropWhile_cons, ha]
    · rw [List.dropWhile_append, hsplit]
      simp [List.dropWhile_cons, ha]

theorem stripList_idem (l : List Char) : stripList (stripList l) = stripList l := by
  have h1 : (stripList l).dropWhile isSpaceChar = stripList l := dropWhile_stripList
  have h2 : (stripList l).reverse.dropWhile isSpaceChar = (stripList l).reverse := by
    unfold stripList
    rw [List.reverse_reverse]
    exact dropWhile_dropWhile _
  show (((stripList l).dropWhile isSpaceChar).reverse.dropWhile isSpaceChar).reverse
      = stripList l
  rw [h1, h2, List.reverse_reverse]

theorem pyStrip_idem (s : String) : pyStrip (pyStrip s) = pyStrip s := by
  unfold pyStrip
  rw [show (String.mk (stripList s.data)).data = stripList s.data from rfl,
    stripList_idem]

theorem charListLe_refl : ∀ l : List Char, charListLe l l = true
  | [] => rfl
  | a :: l => by simp [charListLe, charListLe_refl l]

theorem charListLe_total : ∀ a b : List Char,
    charListLe a b = true ∨ charListLe b a = true
  | [], _ => Or.inl rfl
  | _ :: _, [] => Or.inr rfl
  | x :: xs, y :: ys => by
    rcases Nat.lt_trichotomy x.toNat y.toNat with h | h | h
    · left
      simp [charListLe, h]
    · rcases charListLe_total xs ys with hr | hr
      · left
        simp [charListLe, h, hr]
      · right
        simp [charListLe, h.symm, hr]
    · right
      simp [charListLe, h]

theorem charListLe_trans : ∀ a b c : List Char, charListLe a b = true →
    charListLe b c = true → charListLe a c = true
  | [], _, _, _, _ => rfl
  | x :: xs, [], c, hab, _ => by simp [charListLe] at hab
  | x :: xs, y :: ys, [], _, hbc => by simp [charListLe] at hbc
  | x :: xs, y :: ys, z :: zs, hab, hbc => by
    simp only [charListLe, Bool.or_eq_true, Bool.and_eq_true, decide_eq_true_eq,
      beq_iff_eq] at hab hbc ⊢
    rcases hab with hab | ⟨hab, habr⟩
    · rcases hbc with hbc | ⟨hbc, _⟩
      · exact Or.inl (Nat.lt_trans hab hbc)
      · exact Or.inl (hbc ▸ hab)
    · rcases hbc with hbc | ⟨hbc, hbcr⟩
      · exact Or.inl (hab ▸ hbc)
      · exact Or.inr ⟨hab.trans hbc, charListLe_trans xs ys zs habr hbcr⟩

instance : IsTotal String pyStrLe :=
  ⟨fun a b => charListLe_total a.data b.data⟩

instance : IsTrans String pyStrLe :=
  ⟨fun a b c => charListLe_trans a.data b.data c.data⟩

theorem pySorted_sorted (l : List String) : List.Sorted pyStrLe (pySorted l) :=
  List.sorted_insertionSort pyStrLe l

theorem pySorted_perm (l : List String) : List.Perm (pySorted l) l :=
  List.perm_insertionSort pyStrLe l

theorem pySortedSet_nodup (l : List String) : (pySortedSet l).Nodup :=
  (pySorted_perm l.dedup).nodup_iff.mpr (List.nodup_dedup l)

theorem pySortedSet_sorted (l : List String) :
    List.Sorted pyStrLe (pySortedSet l) :=
  pySorted_sorted l.dedup

/-- Two pairwise properties hold simultaneously. -/
theorem pairwiseAnd {α : Type _} {R S : α → α → Prop} :
    ∀ {l : List α}, l.Pairwise R → l.Pairwise S →
      l.Pairwise (fun a b => R a b ∧ S a b)
  | [], _, _ => List.Pairwise.nil
  | a :: l, hR, hS => by
    rcases List.pairwise_cons.mp hR with ⟨hRa, hRl⟩
    rcases List.pairwise_cons.mp hS with ⟨hSa, hSl⟩
    exact List.pairwise_cons.mpr
      ⟨fun b hb => ⟨hRa b hb, hSa b hb⟩, pairwiseAnd hRl hSl⟩

/-- After `sorted(list(set(...)))` the entries are strictly increasing. -/
theorem pySortedSet_pairwise_lt (l : List String) :
    (pySortedSet l).Pairwise pyStrLt := by
  have h := pairwiseAnd (pySortedSet_sorted l) (pySortedSet_nodup l)
  exact h.imp (fun hab => ⟨hab.1, hab.2⟩)

theorem pySortedSet_idem (l : List String) :
    pySortedSet (pySortedSet l) = pySortedSet l := by
  show pySorted (pySortedSet l).dedup = pySortedSet l
  rw [List.dedup_eq_self.mpr (pySortedSet_nodup l)]
  exact List.Sorted.insertionSort_eq (pySortedSet_sorted l)

theorem indelDistFuel_self : ∀ (f : Nat) (l : List Char), l.length ≤ f →
    indelDistFuel f l l = 0
  | 0, [], _ => rfl
  | _ + 1, [], _ => rfl
  | 0, x :: xs, h => absurd h (by simp)
  | f + 1, x :: xs, h => by
    have : xs.length ≤ f := by
      simpa using h
    simp [indelDistFuel, indelDistFuel_self f xs this]

theorem indelDist_self (l : List Char) : indelDist l l = 0 :=
  indelDistFuel_self _ l (by omega)

theorem fuzzRatio_self (s : String) : fuzzRatio s s = 100 := by
  unfold fuzzRatio
  rcases Nat.eq_zero_or_pos s.data.length with h | h
  · simp [h]
  · have hne : s.data.length + s.data.length ≠ 0 := by omega
    rw [if_neg hne, indelDist_self]
    have h0 : (0 : ℚ) < (s.data.length : ℚ) := by exact_mod_cast h
    push_cast
    rw [sub_zero, div_self (by linarith), mul_one]

theorem token_sort_ratio_self (s : String) : token_sort_ratio s s = 100 :=
  fuzzRatio_self _

/-! ## Claim C6 — status-checker transitions -/

/-- C6: for every stored Active job, `_update_job_status` maps a 404 (or
410) probe to status Removed with the status code recorded
(`status_check_code = 404` for a 404), while every other outcome — 200,
redirects, 503 and other 5xx, network error (code 0), 401/403 and any
other code — leaves the status Active. -/
theorem C6_status_transitions (job : JobRow) (now : ℚ) (err : Option String)
    (hact : job.status = .active) :
    ((update_job_status now job 404 err).status = .removed ∧
      (update_job_status now job 404 err).status_check_code = some 404) ∧
    ((update_job_status now job 410 err).status = .removed ∧
      (update_job_status now job 410 err).status_check_code = some 410) ∧
    (∀ code : Int, code ≠ 404 → code ≠ 410 →
      (update_job_status now job code err).status = .active) := by
  refine ⟨?_, ?_, ?_⟩
  · constructor <;> simp [update_job_status, mark_as_removed, optIntTruthy, optStrTruthy]
  · constructor <;> simp [update_job_status, mark_as_removed, optIntTruthy, optStrTruthy]
  · intro code h404 h410
    have hne : ¬(code = 404 ∨ code = 410) := by
      rintro (h | h)
      · exact h404 h
      · exact h410 h
    simp only [update_job_status]
    split_ifs <;> first | exact hact | exact absurd (by assumption) hne

/-- C6 witness: the transition facts at a concrete Active row. -/
theorem C6_witness :
    ((update_job_status 0 { status := .active } 404 none).status = .removed ∧
      (update_job_status 0 { status := .active } 404 none).status_check_code =
        some 404) ∧
    ((update_job_status 0 { status := .active } 410 none).status = .removed ∧
      (update_job_status 0 { status := .active } 410 none).status_check_code =
        some 410) ∧
    (∀ code : Int, code ≠ 404 → code ≠ 410 →
      (update_job_status 0 { status := .active } code none).status = .active) :=
  C6_status_transitions { status := .active } 0 none rfl

/-! ## Claim C9 — extract_salary with no pattern match -/

/-- C9 (amended): when none of the three salary patterns matches the text,
`extract_salary` leaves `min` and `max` null — but `currency` keeps its
initialized value, the string `"USD"`, rather than being null. -/
theorem C9_no_match_result (text : String)
    (h1 : reSearch salary_pattern1 text = none)
    (h2 : reSearch salary_pattern2 text = none)
    (h3 : reSearch salary_pattern3 text = none) :
    extract_salary text = { min := none, max := none, currency := some "USD" } := by
  unfold extract_salary salary_patterns
  simp [h1, h2, h3]

/-- C9 witness: on `"hello"` the three searches fail and the result keeps
the non-null currency. -/
theorem C9_witness :
    extract_salary "hello" = { min := none, max := none, currency := some "USD" } :=
  C9_no_match_result "hello" (by decide) (by decide) (by decide)

/-- C9 counterexample: `"hello"` matches none of the three patterns, yet
the claim's conclusion fails — the result's fields are not all null,
because `currency` is the string `"USD"`. -/
theorem C9_counterexample :
    reSearch salary_pattern1 "hello" = none ∧
    reSearch salary_pattern2 "hello" = none ∧
    reSearch salary_pattern3 "hello" = none ∧
    ¬((extract_salary "hello").min = none ∧ (extract_salary "hello").max = none ∧
      (extract_salary "hello").currency = none) := by
  refine ⟨by decide, by decide, by decide, by decide⟩

/-! ## Claim C8 — classifier behaviour on a missing/corrupt taxonomy -/

/-- C8 (amended): when loading the taxonomy file fails (missing or
corrupt), `_load_categories` swallows the exception and returns an empty
taxonomy; the classifier still initializes — its keyword database is
exactly the built-in industry/category keywords — and `classify_job`
runs, returning the default classification when nothing matches.  Startup
does not fail. -/
theorem C8_load_failure_initializes (msg : String) :
    load_categories (Except.error msg) = [] ∧
    build_keyword_database (load_categories (Except.error msg)) =
      add_industry_keywords [] ∧
    classify_job (load_categories (Except.error msg))
      (build_keyword_database (load_categories (Except.error msg))) "" "" =
      default_classification := by
  refine ⟨rfl, rfl, ?_⟩
  show classify_job [] (build_keyword_database []) "" "" = default_classification
  decide

/-- C8 counterexample: at the concrete load failure the classifier does
not refuse to start — the taxonomy silently becomes empty, the keyword
database is still non-empty (built-in keywords), and classification
proceeds. -/
theorem C8_counterexample :
    load_categories (Except.error "No such file or directory") = [] ∧
    build_keyword_database [] ≠ [] ∧
    classify_job [] (build_keyword_database []) "Senior React Developer" "" ≠
      default_classification := by
  refine ⟨rfl, by decide, by decide⟩

/-! ## Claim C1 — merge of a short-description primary with a
salary-bearing duplicate -/

/-- The primary job of the repository's own
`test_merge_duplicate_jobs` test. -/
def mergeTestPrimary : JobData :=
  { title := some "Software Engineer", company := some "Google",
    location := some "San Francisco, CA",
    description := some "Short description",
    all_skills := some ["python", "django"],
    source_platform := some "LinkedIn",
    source_url := some "https://linkedin.com/job1" }

/-- The duplicate job of the repository's own
`test_merge_duplicate_jobs` test. -/
def mergeTestDuplicate : JobData :=
  { title := some "Software Engineer", company := some "Google",
    location := some "San Francisco, CA",
    description := some "Much longer and more detailed description about the role",
    all_skills := some ["python", "flask", "docker"],
    source_platform := some "Indeed",
    source_url := some "https://indeed.com/job2",
    salary_min := some 120000, salary_max := some 180000 }

/-- C1: at the repository's own test input (primary with a short non-empty
description and no salary; one duplicate with a longer description and a
salary), the merge keeps the primary's short description — the duplicate's
longer description is NOT adopted, contradicting both the claim and the
repository's `test_merge_duplicate_jobs` assertion that `"detailed"`
occurs in the merged description.  The salary fields and the dedup count
do behave as claimed. -/
theorem C1_merge_keeps_short_description :
    (merge_duplicate_jobs mergeTestPrimary [mergeTestDuplicate]).description =
      some "Short description" ∧
    strContains
      ((merge_duplicate_jobs mergeTestPrimary [mergeTestDuplicate]).description.getD "")
      "detailed" = false ∧
    (merge_duplicate_jobs mergeTestPrimary [mergeTestDuplicate]).salary_min =
      some 120000 ∧
    (merge_duplicate_jobs mergeTestPrimary [mergeTestDuplicate]).salary_max =
      some 180000 ∧
    (merge_duplicate_jobs mergeTestPrimary [mergeTestDuplicate]).dedup_count =
      some 2 := by
  refine ⟨by decide, by decide, by decide, by decide, by decide⟩

/-! ## Claim C3 — skills after sanitize -/

/-- The job of the repository's own `test_sanitize_skills_deduplication`
test. -/
def skillsTestJob : JobData :=
  { all_skills := some ["python", "Python", "PYTHON", "django", "Django"],
    title := some "Engineer", company := some "Google",
    location := some "SF", country := some "US" }

/-- C3: at the repository's own test input, `sanitize` keeps all five
case-variant skills (deduplication is case-sensitive), so the sanitized
`all_skills` contains entries that are equal case-insensitively —
contradicting the claim and the repository's own
`test_sanitize_skills_deduplication` assertion that the list shrinks.
(The list is sorted ascending, as the other half of the claim states.) -/
theorem C3_sanitize_keeps_case_variants :
    (sanitize skillsTestJob).all_skills =
      some ["Django", "PYTHON", "Python", "django", "python"] ∧
    ¬ ((sanitize skillsTestJob).all_skills.getD []).Pairwise
        (fun a b => pyLower a ≠ pyLower b) ∧
    ((sanitize skillsTestJob).all_skills.getD []).Pairwise pyStrLt := by
  refine ⟨by decide, by decide, by decide⟩

/-! ## Claim C5 — salary-range validation -/

/-- C5 (amended): when both salaries are present and truthy (non-zero) and
`salary_min > salary_max`, `validate` rejects the record and its error
list contains the salary-range error.  (Presence alone is not enough: the
Python guard `if salary_min and salary_max` uses truthiness, so a present
zero salary skips the check — see the counterexample.) -/
theorem C5_salary_range_error (cfg : VConfig) (isoOk : String → Bool) (now : ℚ)
    (j : JobData) (m M : ℚ) (hmin : j.salary_min = some m)
    (hmax : j.salary_max = some M) (hm : m ≠ 0) (hM : M ≠ 0) (hlt : M < m) :
    (validate cfg isoOk now j).1 = false ∧
    salaryRangeMsg m M ∈ (validate cfg isoOk now j).2 := by
  have hseg : salaryRangeMsg m M ∈ (validate cfg isoOk now j).2 := by
    simp only [validate, hmin, hmax, optNumTruthy, Option.getD_some]
    simp [List.mem_append, hm, hM, hlt]
  refine ⟨?_, hseg⟩
  have hne : (validate cfg isoOk now j).2 ≠ [] := List.ne_nil_of_mem hseg
  obtain ⟨x, xs, hx⟩ := List.exists_cons_of_ne_nil hne
  rw [show (validate cfg isoOk now j).1 = (validate cfg isoOk now j).2.isEmpty
    from rfl, hx]
  rfl

/-- C5 witness: the spec's own instance, `salary_min = 200000`,
`salary_max = 100000`. -/
theorem C5_witness :
    (validate {} (fun _ => true) 0
      { salary_min := some 200000, salary_max := some 100000 }).1 = false ∧
    salaryRangeMsg 200000 100000 ∈
      (validate {} (fun _ => true) 0
        { salary_min := some 200000, salary_max := some 100000 }).2 :=
  C5_salary_range_error {} (fun _ => true) 0
    { salary_min := some 200000, salary_max := some 100000 }
    200000 100000 rfl rfl (by norm_num) (by norm_num) (by norm_num)

/-- An otherwise fully valid job whose `salary_max` is the (present)
number `0`, with `salary_min = 5 > 0 = salary_max`. -/
def salaryZeroJob : JobData :=
  { job_id := some "j1", title := some "Software Engineer",
    company := some "Acme", location := some "New York, NY",
    country := some "US",
    description := some
      "A perfectly reasonable description that is certainly longer than fifty characters in total.",
    salary_min := some 5, salary_max := some 0,
    source_url := some "https://example.com/j" }

/-- C5 counterexample: both salaries are present and `salary_min >
salary_max`, yet `validate` accepts the record with no errors — the
truthiness guard skips the range check because `salary_max == 0`. -/
theorem C5_counterexample :
    salaryZeroJob.salary_min = some 5 ∧ salaryZeroJob.salary_max = some 0 ∧
    (0 : ℚ) < 5 ∧
    validate {} (fun _ => true) 0 salaryZeroJob = (true, []) := by
  refine ⟨rfl, rfl, by norm_num, by decide⟩

/-! ## Claim C4 — self-comparison in is_duplicate -/

theorem sum_of_hundreds : ∀ scores : List ℚ, (∀ x ∈ scores, x = 100) →
    scores.sum = (scores.length : ℚ) * 100
  | [], _ => by simp
  | a :: l, hall => by
    have ha : a = 100 := hall a (by simp)
    have hl : l.sum = (l.length : ℚ) * 100 :=
      sum_of_hundreds l (fun x hx => hall x (by simp [hx]))
    simp only [List.sum_cons, List.length_cons, ha, hl]
    push_cast
    ring

theorem avg_of_hundreds (scores : List ℚ) (hne : scores ≠ [])
    (hall : ∀ x ∈ scores, x = 100) :
    scores.sum / (scores.length : ℚ) = 100 := by
  have hlen : (scores.length : ℚ) ≠ 0 := by
    have : scores.length ≠ 0 := by
      simpa [List.length_eq_zero] using hne
    exact_mod_cast this
  rw [sum_of_hundreds scores hall, mul_comm, mul_div_assoc, div_self hlen,
    mul_one]

/-- C4 (amended): with deduplication enabled and any threshold at most 100
(the default is 85), a job compared with itself is a duplicate with
similarity score 100 — provided at least one of title, company, location
is non-empty after lowercasing and stripping.  (With all three empty the
field loop collects no scores and the result is `(False, 0.0)` — see the
counterexample.) -/
theorem C4_self_duplicate (cfg : DedupConfig) (j : JobData)
    (hen : cfg.enabled = true) (hth : cfg.threshold ≤ 100)
    (hne : strIsEmpty (pyStrip (pyLower (j.title.getD ""))) = false ∨
      strIsEmpty (pyStrip (pyLower (j.company.getD ""))) = false ∨
      strIsEmpty (pyStrip (pyLower (j.location.getD ""))) = false) :
    is_duplicate cfg j j = (true, 100) := by
  simp only [is_duplicate, hen, Bool.not_true, Bool.false_eq_true, if_false,
    List.foldl_cons, List.foldl_nil, token_sort_ratio_self, Bool.or_self,
    List.nil_append]
  cases ht : strIsEmpty (pyStrip (pyLower (j.title.getD ""))) <;>
    cases hc : strIsEmpty (pyStrip (pyLower (j.company.getD ""))) <;>
      cases hl : strIsEmpty (pyStrip (pyLower (j.location.getD "")))
  case true.true.true => exact absurd hne (by simp [ht, hc, hl])
  all_goals
    simp only [ht, hc, hl, Bool.false_eq_true, Bool.true_eq_false, if_true,
      if_false, ite_true, ite_false, List.nil_append]
  all_goals
    rw [if_neg (by simp)]
    rw [avg_of_hundreds _ (by simp) (by intro x hx; simpa using hx)]
    simp [decide_eq_true_eq, hth]

/-- C4 witness: a concrete job with a non-empty title is a duplicate of
itself with score 100 under the default configuration. -/
theorem C4_witness :
    is_duplicate { threshold := 85, enabled := true }
      { title := some "Senior Python Developer" }
      { title := some "Senior Python Developer" } = (true, 100) :=
  C4_self_duplicate { threshold := 85, enabled := true }
    { title := some "Senior Python Developer" } rfl (by norm_num)
    (Or.inl (by decide))

/-- C4 counterexample: a job whose title, company and location are all
empty is NOT a duplicate of itself — every field is skipped, no scores
are collected, and the result is `(False, 0.0)`, not `(True, 100)`. -/
theorem C4_counterexample :
    is_duplicate { threshold := 85, enabled := true } emptyJob emptyJob =
      (false, 0) ∧
    is_duplicate { threshold := 85, enabled := true } emptyJob emptyJob ≠
      (true, 100) := by
  refine ⟨by decide, by decide⟩

/-! ## Claim C10 — the merge does not mutate its inputs -/

theorem heapGet_append {h : Heap} {a : Nat} (ha : a < h.length) (v : JobData) :
    heapGet (h ++ [v]) a = heapGet h a := by
  unfold heapGet
  rw [List.getElem?_append, if_pos ha]

theorem heapGet_set_ne {h : Heap} {m a : Nat} (hne : a ≠ m) (v : JobData) :
    heapGet (heapSet h m v) a = heapGet h a := by
  unfold heapGet heapSet
  exact List.getElem?_set_ne (Ne.symm hne)

/-- One loop iteration of the heap-level merge writes only the merged
cell `m`. -/
theorem merge_heap_step_frame (m : Nat) (acc : Heap × List String × List String)
    (d : Nat) {a : Nat} (hne : a ≠ m) :
    heapGet (merge_heap_step m acc d).1 a = heapGet acc.1 a := by
  unfold merge_heap_step
  dsimp only
  split_ifs <;> simp [heapGet_set_ne hne]

theorem fold_steps_frame (m : Nat) :
    ∀ (dups : List Nat) (acc : Heap × List String × List String) {a : Nat},
      a ≠ m → heapGet (dups.foldl (merge_heap_step m) acc).1 a = heapGet acc.1 a
  | [], _, _, _ => rfl
  | d :: dups, acc, a, hne => by
    rw [List.foldl_cons, fold_steps_frame m dups _ hne,
      merge_heap_step_frame m acc d hne]

/-- C10: `merge_duplicate_jobs` does not mutate its inputs.  In the heap
model, after the call the cells holding the primary record and every
duplicate record are unchanged (hence each of their top-level fields is
unchanged), and the merged result lives at a fresh address that was not in
the heap before the call. -/
theorem C10_merge_heap_frame (h : Heap) (p : Nat) (dups : List Nat)
    (hp : p < h.length) (hd : ∀ d ∈ dups, d < h.length) :
    heapGet (merge_duplicate_jobs_heap h p dups).1 p = heapGet h p ∧
    (∀ d ∈ dups,
      heapGet (merge_duplicate_jobs_heap h p dups).1 d = heapGet h d) ∧
    (merge_duplicate_jobs_heap h p dups).2 = h.length ∧
    heapGet h (merge_duplicate_jobs_heap h p dups).2 = none := by
  have key : ∀ a, a < h.length →
      heapGet (merge_duplicate_jobs_heap h p dups).1 a = heapGet h a := by
    intro a ha
    have hne : a ≠ h.length := Nat.ne_of_lt ha
    unfold merge_duplicate_jobs_heap
    dsimp only
    rw [heapGet_set_ne hne, fold_steps_frame h.length dups _ hne,
      heapGet_append ha]
  refine ⟨key p hp, fun d hdm => key d (hd d hdm), rfl, ?_⟩
  show heapGet h h.length = none
  unfold heapGet
  exact List.getElem?_eq_none (le_refl _)

/-- C10 witness: the frame property at a concrete two-record heap. -/
theorem C10_witness :
    heapGet (merge_duplicate_jobs_heap [mergeTestPrimary, mergeTestDuplicate]
      0 [1]).1 0 = heapGet [mergeTestPrimary, mergeTestDuplicate] 0 ∧
    (∀ d ∈ [1],
      heapGet (merge_duplicate_jobs_heap [mergeTestPrimary, mergeTestDuplicate]
        0 [1]).1 d = heapGet [mergeTestPrimary, mergeTestDuplicate] d) ∧
    (merge_duplicate_jobs_heap [mergeTestPrimary, mergeTestDuplicate] 0 [1]).2 =
      ([mergeTestPrimary, mergeTestDuplicate] : Heap).length ∧
    heapGet [mergeTestPrimary, mergeTestDuplicate]
      (merge_duplicate_jobs_heap [mergeTestPrimary, mergeTestDuplicate] 0 [1]).2 =
      none :=
  C10_merge_heap_frame [mergeTestPrimary, mergeTestDuplicate] 0 [1]
    (by decide) (by decide)

/-! ## Claim C7 — classification confidence bounds -/

theorem dbAdd_nonneg : ∀ (db : KeywordDB) (k : String) (e : KwEntry),
    (∀ ke ∈ db, ∀ x ∈ ke.2, 0 ≤ x.weight) → 0 ≤ e.weight →
      ∀ ke ∈ dbAdd db k e, ∀ x ∈ ke.2, 0 ≤ x.weight
  | [], k, e, _, he => by
    intro ke hke x hx
    simp only [dbAdd, List.mem_singleton] at hke
    subst hke
    simp only [List.mem_singleton] at hx
    subst hx
    exact he
  | (k1, es) :: rest, k, e, hdb, he => by
    intro ke hke x hx
    by_cases hkk : k1 = k
    · rw [show dbAdd ((k1, es) :: rest) k e = (k1, es ++ [e]) :: rest by
        simp [dbAdd, hkk]] at hke
      rcases List.mem_cons.mp hke with h | h
      · subst h
        rcases List.mem_append.mp hx with h2 | h2
        · exact hdb (k1, es) (by simp) x h2
        · simp only [List.mem_singleton] at h2
          subst h2
          exact he
      · exact hdb ke (by simp [h]) x hx
    · rw [show dbAdd ((k1, es) :: rest) k e = (k1, es) :: dbAdd rest k e by
        simp [dbAdd, hkk]] at hke
      rcases List.mem_cons.mp hke with h | h
      · subst h
        exact hdb (k1, es) (by simp) x hx
      · exact dbAdd_nonneg rest k e (fun ke2 hke2 => hdb ke2 (by simp [hke2]))
          he ke h x hx

theorem add_industry_keywords_nonneg (db : KeywordDB)
    (hdb : ∀ ke ∈ db, ∀ x ∈ ke.2, 0 ≤ x.weight) :
    ∀ ke ∈ add_industry_keywords db, ∀ x ∈ ke.2, 0 ≤ x.weight := by
  have hhc : ∀ kw ∈ healthcare_keywords_weighted, (0 : ℚ) ≤ kw.2 := by decide
  have hit : ∀ ck ∈ it_category_keywords, ∀ kw ∈ ck.2, (0 : ℚ) ≤ kw.2 := by decide
  unfold add_industry_keywords
  dsimp only
  apply @foldl_invariant _ _ (fun (d : KeywordDB) => ∀ ke ∈ d, ∀ x ∈ ke.2, 0 ≤ x.weight)
  · intro b ck hck hb
    apply @foldl_invariant _ _ (fun (d : KeywordDB) => ∀ ke ∈ d, ∀ x ∈ ke.2, 0 ≤ x.weight)
    · intro b2 kw hkw hb2
      exact dbAdd_nonneg b2 kw.1 _ hb2 (hit ck hck kw hkw)
    · exact hb
  · apply @foldl_invariant _ _ (fun (d : KeywordDB) => ∀ ke ∈ d, ∀ x ∈ ke.2, 0 ≤ x.weight)
    · intro b kw hkw hb
      exact dbAdd_nonneg b kw.1 _ hb (hhc kw hkw)
    · exact hdb

theorem build_keyword_database_nonneg (categories : Categories) :
    ∀ ke ∈ build_keyword_database categories, ∀ x ∈ ke.2, 0 ≤ x.weight := by
  unfold build_keyword_database
  dsimp only
  apply add_industry_keywords_nonneg
  apply @foldl_invariant _ _ (fun (d : KeywordDB) => ∀ ke ∈ d, ∀ x ∈ ke.2, 0 ≤ x.weight)
  · intro b ic _ hb
    apply @foldl_invariant _ _ (fun (d : KeywordDB) => ∀ ke ∈ d, ∀ x ∈ ke.2, 0 ≤ x.weight)
    · intro b2 ct _ hb2
      apply @foldl_invariant _ _ (fun (d : KeywordDB) => ∀ ke ∈ d, ∀ x ∈ ke.2, 0 ≤ x.weight)
      · intro b3 job_title _ hb3
        apply @foldl_invariant _ _ (fun (d : KeywordDB) => ∀ ke ∈ d, ∀ x ∈ ke.2, 0 ≤ x.weight)
        · intro b4 w _ hb4
          by_cases hw : w ∈ classifierStopwords
          · simpa [hw] using hb4
          · simp only [hw, if_false]
            exact dbAdd_nonneg b4 w _ hb4 (by norm_num)
        · exact dbAdd_nonneg b3 _ _ hb3 (by norm_num)
      · exact hb2
    · exact hb
  · intro ke hke
    simp at hke

theorem bumpScore_nonneg : ∀ (scores : List (String × ℚ)) (cat : String) (w : ℚ),
    (∀ cv ∈ scores, 0 ≤ cv.2) → 0 ≤ w →
      ∀ cv ∈ bumpScore scores cat w, 0 ≤ cv.2
  | [], cat, w, _, hw => by
    intro cv hcv
    simp only [bumpScore, List.mem_singleton] at hcv
    subst hcv
    exact hw
  | (c, v) :: rest, cat, w, hs, hw => by
    intro cv hcv
    by_cases hcc : c = cat
    · rw [show bumpScore ((c, v) :: rest) cat w = (c, v + w) :: rest by
        simp [bumpScore, hcc]] at hcv
      rcases List.mem_cons.mp hcv with h | h
      · subst h
        exact add_nonneg (hs (c, v) (by simp)) hw
      · exact hs cv (by simp [h])
    · rw [show bumpScore ((c, v) :: rest) cat w = (c, v) :: bumpScore rest cat w by
        simp [bumpScore, hcc]] at hcv
      rcases List.mem_cons.mp hcv with h | h
      · subst h
        exact hs (c, v) (by simp)
      · exact bumpScore_nonneg rest cat w (fun cv2 hcv2 => hs cv2 (by simp [hcv2]))
          hw cv h

theorem calculate_category_scores_nonneg (db : KeywordDB) (text : String)
    (hdb : ∀ ke ∈ db, ∀ x ∈ ke.2, 0 ≤ x.weight) :
    ∀ cv ∈ calculate_category_scores db text, 0 ≤ cv.2 := by
  unfold calculate_category_scores
  apply @foldl_invariant _ _ (fun (s : List (String × ℚ)) => ∀ cv ∈ s, 0 ≤ cv.2)
  · intro scores ke hke hs
    cases hsc : strContains text ke.1
    · simpa [hsc] using hs
    · simp only [hsc, if_true]
      apply @foldl_invariant _ _ (fun (s : List (String × ℚ)) => ∀ cv ∈ s, 0 ≤ cv.2)
      · intro b m hm hb
        cases hcat : m.category with
        | none => simpa [hcat] using hb
        | some category =>
          simp only [hcat]
          have hwm : 0 ≤ m.weight := hdb ke hke m hm
          by_cases hboost : strContains (strTake text 200) ke.1
          · simp only [hboost, if_true]
            exact bumpScore_nonneg b category _ hb
              (mul_nonneg hwm (by norm_num))
          · simp only [hboost, if_false]
            exact bumpScore_nonneg b category _ hb hwm
      · exact hs
  · intro cv hcv
    simp at hcv

theorem pyRoundHalfEven_nonneg {y : ℚ} (h : 0 ≤ y) : 0 ≤ pyRoundHalfEven y := by
  have hf : (0 : ℤ) ≤ ⌊y⌋ := Int.floor_nonneg.mpr h
  simp only [pyRoundHalfEven]
  split_ifs <;> omega

theorem pyRoundHalfEven_le_int {y : ℚ} {b : ℤ} (h : y ≤ (b : ℚ)) :
    pyRoundHalfEven y ≤ b := by
  have hfb : ⌊y⌋ ≤ b := by
    have := Int.floor_le_floor h
    simpa using this
  rcases lt_or_eq_of_le hfb with hlt | heq
  · simp only [pyRoundHalfEven]
    split_ifs <;> omega
  · have hy : y = (b : ℚ) := le_antisymm h (by rw [← heq]; exact Int.floor_le y)
    have hfrac : y - (⌊y⌋ : ℚ) = 0 := by rw [heq, hy]; simp
    simp only [pyRoundHalfEven]
    rw [if_pos (by rw [hfrac]; norm_num)]
    omega

theorem pyRound3_bounds01 {x : ℚ} (h0 : 0 ≤ x) (h1 : x ≤ 1) :
    0 ≤ pyRound x 3 ∧ pyRound x 3 ≤ 1 := by
  unfold pyRound
  constructor
  · apply div_nonneg _ (by norm_num)
    exact_mod_cast pyRoundHalfEven_nonneg (by positivity)
  · rw [div_le_one (by norm_num)]
    have hb : pyRoundHalfEven (x * 10 ^ 3) ≤ (1000 : ℤ) := by
      apply pyRoundHalfEven_le_int
      push_cast
      nlinarith
    calc (pyRoundHalfEven (x * 10 ^ 3) : ℚ) ≤ (1000 : ℚ) := by exact_mod_cast hb
      _ = 10 ^ 3 := by norm_num

/-- C7: for every taxonomy configuration and every title and description
(including empty strings), the `classification_confidence` returned by
`classify_job` (run, as at startup, on the keyword database built from
that taxonomy) lies in the closed interval `[0, 1]`. -/
theorem C7_confidence_in_unit_interval (categories : Categories)
    (title description : String) :
    0 ≤ (classify_job categories (build_keyword_database categories)
        title description).classification_confidence ∧
    (classify_job categories (build_keyword_database categories)
        title description).classification_confidence ≤ 1 := by
  unfold classify_job
  set db := build_keyword_database categories with hdbdef
  set text := pyLower (title ++ " " ++ description) with htext
  set scores := calculate_category_scores db text with hscores
  cases hemp : scores.isEmpty
  · simp only [hemp, Bool.false_eq_true, if_false]
    have hsne : scores ≠ [] := by
      intro hcon
      rw [hcon] at hemp
      simp at hemp
    have hperm := List.perm_insertionSort scoreDescOrder scores
    have hsortne : List.insertionSort scoreDescOrder scores ≠ [] := by
      intro hcon
      rw [hcon] at hperm
      exact hsne hperm.nil_eq.symm
    obtain ⟨hd, tl, hsort⟩ := List.exists_cons_of_ne_nil hsortne
    have hmem : hd ∈ scores := hperm.mem_iff.mp (by rw [hsort]; simp)
    have h0 : 0 ≤ hd.2 :=
      calculate_category_scores_nonneg db text
        (build_keyword_database_nonneg categories) hd hmem
    rw [hsort]
    simp only [List.headD_cons]
    exact pyRound3_bounds01
      (le_min (div_nonneg h0 (by norm_num)) zero_le_one)
      (min_le_right _ _)
  · simp only [hemp, if_true]
    unfold default_classification
    norm_num

/-! ## Claim C2 — idempotence of sanitize on validated records -/

theorem sanitize_job_id (x : JobData) : (sanitize x).job_id = x.job_id := rfl

theorem sanitize_title (x : JobData) : (sanitize x).title = x.title.map pyStrip := rfl

theorem sanitize_company (x : JobData) :
    (sanitize x).company = (x.company.map pyStrip).map stripCompanySuffixes := rfl

theorem sanitize_location (x : JobData) :
    (sanitize x).location = x.location.map pyStrip := rfl

theorem sanitize_description (x : JobData) :
    (sanitize x).description = x.description.map pyStrip := rfl

theorem sanitize_category (x : JobData) :
    (sanitize x).category = x.category.map pyStrip := rfl

theorem sanitize_industry (x : JobData) :
    (sanitize x).industry = x.industry.map pyStrip := rfl

theorem sanitize_country (x : JobData) :
    (sanitize x).country =
      x.country.map (fun c => if strIsEmpty c then c else pyUpper c) := rfl

theorem sanitize_all_skills (x : JobData) :
    (sanitize x).all_skills = x.all_skills.map pySortedSet := rfl

theorem sanitize_skills_required (x : JobData) :
    (sanitize x).skills_required = x.skills_required.map pySortedSet := rfl

theorem sanitize_skills_preferred (x : JobData) :
    (sanitize x).skills_preferred = x.skills_preferred.map pySortedSet := rfl

theorem sanitize_remote (x : JobData) :
    (sanitize x).remote = x.remote.map (fun v => PyVal.vBool v.truthy) := rfl

theorem optmap_pyStrip_idem (o : Option String) :
    (o.map pyStrip).map pyStrip = o.map pyStrip := by
  cases o <;> simp [pyStrip_idem]

theorem optmap_pySortedSet_idem (o : Option (List String)) :
    (o.map pySortedSet).map pySortedSet = o.map pySortedSet := by
  cases o <;> simp [pySortedSet_idem]

/-- The company value after one sanitize is already stripped. -/
theorem pyStrip_stripCompanySuffixes (c : String) :
    pyStrip (stripCompanySuffixes (pyStrip c)) = stripCompanySuffixes (pyStrip c) := by
  unfold stripCompanySuffixes
  apply @foldl_invariant _ _ (fun (x : String) => pyStrip x = x)
  · intro b suf _ hb
    by_cases hend : pyEndsWith b suf
    · simp only [hend, if_true]
      exact pyStrip_idem _
    · simpa [hend] using hb
  · exact pyStrip_idem c

theorem foldl_strip_noop : ∀ (sufs : List String) (c : String),
    (∀ suf ∈ sufs, pyEndsWith c suf = false) →
    sufs.foldl
      (fun c suf => if pyEndsWith c suf then pyStrip (strDropRight c suf.length) else c)
      c = c
  | [], _, _ => rfl
  | s :: sufs, c, h => by
    rw [List.foldl_cons, if_neg (by simp [h s (by simp)])]
    exact foldl_strip_noop sufs c (fun suf hsuf => h suf (by simp [hsuf]))

theorem stripCompanySuffixes_noop (c : String)
    (h : ∀ suf ∈ companySuffixes, pyEndsWith c suf = false) :
    stripCompanySuffixes c = c :=
  foldl_strip_noop companySuffixes c h

/-- A record that passes `validate` has an absent, empty, or whitelisted
country code. -/
theorem validate_country_ok (cfg : VConfig) (isoOk : String → Bool) (now : ℚ)
    (j : JobData) (h : (validate cfg isoOk now j).1 = true) :
    j.country = none ∨ j.country = some "" ∨
      ∃ c, j.country = some c ∧ c ∈ valid_countries := by
  cases hc : j.country with
  | none => exact Or.inl rfl
  | some c =>
    by_cases hce : c = ""
    · exact Or.inr (Or.inl (by rw [hce]))
    · refine Or.inr (Or.inr ⟨c, rfl, ?_⟩)
      by_contra hmem
      have hcne : strIsEmpty c = false := by
        cases c with
        | mk l =>
          cases l with
          | nil => exact absurd rfl hce
          | cons a t => simp [strIsEmpty]
      have hseg : ("Invalid country code: " ++ c) ∈ (validate cfg isoOk now j).2 := by
        simp only [validate, hc]
        simp [List.mem_append, optStrTruthy, hcne, hmem]
      have hne : (validate cfg isoOk now j).2 ≠ [] := List.ne_nil_of_mem hseg
      obtain ⟨x, xs, hx⟩ := List.exists_cons_of_ne_nil hne
      have : (validate cfg isoOk now j).1 = false := by
        rw [show (validate cfg isoOk now j).1 = (validate cfg isoOk now j).2.isEmpty
          from rfl, hx]
        rfl
      rw [this] at h
      exact absurd h (by simp)

/-- C2 (amended): `sanitize` is idempotent on every record that passes
`validate`, provided the sanitized company does not still end with one of
the five removable suffixes.  (The suffix loop removes each suffix at most
once per pass, so a company like `"Acme Inc. Inc."` loses one `" Inc."`
per call — see the counterexample.) -/
theorem C2_sanitize_idempotent (cfg : VConfig) (isoOk : String → Bool) (now : ℚ)
    (j : JobData) (hvalid : (validate cfg isoOk now j).1 = true)
    (hsuffix : ∀ suf ∈ companySuffixes,
      pyEndsWith ((sanitize j).company.getD "") suf = false) :
    sanitize (sanitize j) = sanitize j := by
  have hcountry := validate_country_ok cfg isoOk now j hvalid
  apply JobData.ext
  · exact sanitize_job_id (sanitize j) ▸ sanitize_job_id j ▸ rfl
  · rw [sanitize_title, sanitize_title, optmap_pyStrip_idem]
  · -- company
    rw [sanitize_company (sanitize j), sanitize_company j]
    cases hc : j.company with
    | none => rfl
    | some c =>
      rw [sanitize_company j, hc] at hsuffix
      simp only [Option.map_some', Option.getD_some] at hsuffix
      simp only [Option.map_some']
      rw [pyStrip_stripCompanySuffixes c, stripCompanySuffixes_noop _ hsuffix]
  · rw [sanitize_location, sanitize_location, optmap_pyStrip_idem]
  · -- country
    rw [sanitize_country (sanitize j), sanitize_country j]
    rcases hcountry with h | h | ⟨c, hcc, hcmem⟩
    · rw [h]; rfl
    · rw [h]; rfl
    · rw [hcc]
      fin_cases hcmem <;> rfl
  · rw [sanitize_description, sanitize_description, optmap_pyStrip_idem]
  · rw [sanitize_category, sanitize_category, optmap_pyStrip_idem]
  · rw [sanitize_industry, sanitize_industry, optmap_pyStrip_idem]
  · rfl
  · rfl
  · rfl
  · rw [sanitize_all_skills, sanitize_all_skills, optmap_pySortedSet_idem]
  · rw [sanitize_skills_required, sanitize_skills_required, optmap_pySortedSet_idem]
  · rw [sanitize_skills_preferred, sanitize_skills_preferred, optmap_pySortedSet_idem]
  · rw [sanitize_remote, sanitize_remote]
    cases hr : j.remote with
    | none => rfl
    | some v => cases v <;> rfl
  · rfl
  · rfl
  · rfl
  · rfl
  · rfl
  · rfl

/-- C2 witness: a concrete validate-passing job on which a second sanitize
changes nothing. -/
theorem C2_witness :
    sanitize (sanitize
      { job_id := some "j1", title := some " Senior Engineer ",
        company := some "Acme Inc.", location := some "NYC",
        country := some "US",
        description := some
          "A perfectly ordinary job description easily exceeding the fifty character floor.",
        source_url := some "https://example.com/x" }) =
    sanitize
      { job_id := some "j1", title := some " Senior Engineer ",
        company := some "Acme Inc.", location := some "NYC",
        country := some "US",
        description := some
          "A perfectly ordinary job description easily exceeding the fifty character floor.",
        source_url := some "https://example.com/x" } :=
  C2_sanitize_idempotent {} (fun _ => true) 0 _ (by decide) (by decide)

/-- A validate-passing job whose company carries a doubled legal suffix. -/
def doubleSuffixJob : JobData :=
  { job_id := some "j1", title := some "Engineer",
    company := some "Acme Inc. Inc.", location := some "NYC",
    country := some "US",
    description := some
      "A perfectly ordinary job description easily exceeding the fifty character floor.",
    source_url := some "https://example.com/x" }

/-- C2 counterexample: on a validate-passing record whose company is
`"Acme Inc. Inc."`, sanitize is not idempotent — the first pass yields
company `"Acme Inc."`, the second `"Acme"`. -/
theorem C2_counterexample :
    (validate {} (fun _ => true) 0 doubleSuffixJob).1 = true ∧
    (sanitize doubleSuffixJob).company = some "Acme Inc." ∧
    (sanitize (sanitize doubleSuffixJob)).company = some "Acme" ∧
    sanitize (sanitize doubleSuffixJob) ≠ sanitize doubleSuffixJob := by
  refine ⟨by decide, by decide, by decide, by decide⟩

end Scraping
